import Mathlib

/-!
Verification of the Bubbles WeChat-bot core engines against their source.

The development shallowly embeds three components of the repository:

* the duel ranking store and combat engine (`src/function/func_duel.py`):
  `DuelRankSystem.get_player_data`, `DuelRankSystem.record_duel_result`,
  `HarryPotterDuel.start_duel` and `attempt_sneak_attack`;
* the reminder engine (`src/function/func_reminder.py`):
  `ReminderManager.add_reminder`, `list_reminders`, `delete_reminder`
  and `check_and_trigger_reminders`;
* the command router (`src/commands/router.py`): `CommandRouter.dispatch`.

Modelling conventions: the per-group SQLite table `duel_players` becomes a
function store `String → Option PlayerData` (the composite primary key makes
each `(group, name)` row unique; one store models one group, matching the
per-group `DuelRankSystem` instances).  The `reminders` table becomes a
`List Reminder` of rows; SQL `DELETE`/`UPDATE ... WHERE id = ?` become
id-keyed list operations.  Wall-clock columns (`last_updated`) that no claim
mentions are omitted.  Python `datetime` values are embedded as structured
day/hour/minute/second tuples; the source compares zero-padded
`"YYYY-MM-DD HH:MM"` / `"HH:MM"` strings, which coincides with the
lexicographic comparison of these tuples.  Randomness (`random.random`,
`random.choices`) is embedded as an explicit oracle argument, and SQLite
failures as an explicit failure flag, so every operation is a total
computable function.
-/

namespace Bubbles

/-- One row of the `duel_players` table, for a fixed group: score plus the
win/loss counters and the three item counters (`func_duel.py` lines 46-59).
`last_updated` is omitted (ambient wall-clock metadata used by no claim). -/
structure PlayerData where
  score : Int
  wins : Nat
  losses : Nat
  totalMatches : Nat
  elderWand : Nat
  magicStone : Nat
  invisibilityCloak : Nat
deriving DecidableEq, Repr

/-- The default row inserted for a brand-new player
(`func_duel.py` lines 101-112 and table defaults at lines 50-56). -/
def defaultPlayer : PlayerData :=
  { score := 1000, wins := 0, losses := 0, totalMatches := 0
    elderWand := 0, magicStone := 0, invisibilityCloak := 0 }

/-- The `duel_players` table restricted to one group: a partial map from
player name to row (primary key `(group_id, player_name)`). -/
def PStore := String → Option PlayerData

/-- `SELECT`-free helper: point update of a single existing row, the meaning
of `UPDATE duel_players SET ... WHERE group_id = ? AND player_name = ?`
(a missing row is left missing, as in SQL). -/
def updRow (store : PStore) (name : String) (f : PlayerData → PlayerData) : PStore :=
  fun n => if n = name then (store n).map f else store n

/-- The row-creating side effect of `DuelRankSystem.get_player_data`
(`func_duel.py` lines 76-135): if the player is absent a default row is
inserted, otherwise the store is untouched. -/
def ensurePlayer (store : PStore) (name : String) : PStore :=
  match store name with
  | some _ => store
  | none => fun n => if n = name then some defaultPlayer else store n

/-- The three named items of the duel economy. -/
inductive Item where
  | elderWand
  | magicStone
  | invisibilityCloak
deriving DecidableEq, Repr

/-- `DuelRankSystem.record_duel_result` (`func_duel.py` lines 423-498):
ensure both rows exist, add `winner_points` to the winner's score together
with `wins`/`total_matches` increments, set the loser's score to
`MAX(1, score - loser_points)` with `losses`/`total_matches` increments, and
consume one unit of the used item — `elder_wand` and `invisibility_cloak`
from the winner, `magic_stone` from the loser, each via `MAX(0, x - 1)`
(which is exactly truncated `Nat` subtraction). -/
def recordDuelResult (store : PStore) (winner loser : String)
    (winnerPoints loserPoints : Int) (usedItem : Option Item) : PStore :=
  let s1 := ensurePlayer store winner
  let s2 := ensurePlayer s1 loser
  let s3 := updRow s2 winner (fun d =>
    { d with score := d.score + winnerPoints, wins := d.wins + 1,
             totalMatches := d.totalMatches + 1 })
  let s4 := updRow s3 loser (fun d =>
    { d with score := max 1 (d.score - loserPoints), losses := d.losses + 1,
             totalMatches := d.totalMatches + 1 })
  match usedItem with
  | some .elderWand => updRow s4 winner (fun d => { d with elderWand := d.elderWand - 1 })
  | some .magicStone => updRow s4 loser (fun d => { d with magicStone := d.magicStone - 1 })
  | some .invisibilityCloak =>
      updRow s4 winner (fun d => { d with invisibilityCloak := d.invisibilityCloak - 1 })
  | none => s4

end Bubbles

namespace Bubbles

/-- C1: `record_duel_result` with equal transfer `D ≥ 0` and no item adds
`D` to the winner's score (with `wins` and `total_matches` up by one) and
floors the loser at `max 1 (score - D)` (with `losses` and `total_matches`
up by one); the loser's resulting score is never below 1. -/
theorem c1_record_duel_result (store : PStore) (A B : String) (dA dB : PlayerData)
    (D : Int) (hAB : A ≠ B) (hA : store A = some dA) (hB : store B = some dB)
    (hD : 0 ≤ D) :
    recordDuelResult store A B D D none A =
      some { dA with score := dA.score + D, wins := dA.wins + 1,
                     totalMatches := dA.totalMatches + 1 } ∧
    recordDuelResult store A B D D none B =
      some { dB with score := max 1 (dB.score - D), losses := dB.losses + 1,
                     totalMatches := dB.totalMatches + 1 } ∧
    ∀ dB', recordDuelResult store A B D D none B = some dB' → 1 ≤ dB'.score := by
  have hBA : B ≠ A := fun h => hAB h.symm
  refine ⟨?_, ?_, ?_⟩
  · simp [recordDuelResult, ensurePlayer, updRow, hA, hB, hAB, hBA]
  · simp [recordDuelResult, ensurePlayer, updRow, hA, hB, hAB, hBA]
  · intro dB' h
    simp [recordDuelResult, ensurePlayer, updRow, hA, hB, hAB, hBA] at h
    simp [← h, le_max_left]

/-- A concrete two-player store for witnesses: `"Alice"` at 1200 points and
`"Bob"` at 5 points, both otherwise fresh. -/
def w1Store : PStore := fun n =>
  if n = "Alice" then some { defaultPlayer with score := 1200 }
  else if n = "Bob" then some { defaultPlayer with score := 5 }
  else none

theorem c1_record_duel_result_witness :
    recordDuelResult w1Store "Alice" "Bob" 50 50 none "Alice" =
      some { defaultPlayer with score := 1250, wins := 1, totalMatches := 1 } ∧
    recordDuelResult w1Store "Alice" "Bob" 50 50 none "Bob" =
      some { defaultPlayer with score := 1, losses := 1, totalMatches := 1 } := by
  have h := c1_record_duel_result w1Store "Alice" "Bob"
    { defaultPlayer with score := 1200 } { defaultPlayer with score := 5 } 50
    (by decide) rfl rfl (by decide)
  exact ⟨h.1.trans (by decide), h.2.1.trans (by decide)⟩

end Bubbles

namespace Bubbles

/-- The distinguished NPC opponent: `self.is_boss_fight = (player2 == "泡泡")`
(`func_duel.py` line 532). -/
def bossName : String := "泡泡"

/-- The outcomes of every random draw `HarryPotterDuel.start_duel` can make
that affects state (flavor-text draws are not modelled: they only pick
display strings).  `bossWin` is the `random.random() < 0.1` Boss draw,
`firstAttackerIsP1` the `random.random() < first_attack_prob` draw,
`attackSpell`/`counterSpell` the weighted `random.choices` spell draws and
`defenseSucceeds` the `random.random() < 0.3` defense draw. -/
structure DuelRng where
  bossWin : Bool
  firstAttackerIsP1 : Bool
  attackSpell : Fin 7
  defenseSucceeds : Bool
  counterSpell : Fin 7

/-- The seven spell powers of `self.spells` (`func_duel.py` lines 545-573). -/
def spellPowers : List Int := [10, 25, 40, 55, 70, 85, 100]

/-- Power of the spell at a given index of `self.spells`. -/
def spellPower (i : Fin 7) : Int := spellPowers.getD i.val 0

/-- What a finished duel reports and leaves behind: winner and loser names,
the displayed point deltas, the single recorded consumed item, and the
resulting `duel_players` store. -/
structure DuelSummary where
  winner : String
  loser : String
  winnerPoints : Int
  loserPoints : Int
  usedItem : Option Item
  store : PStore

/-- Winner of the normal single-exchange combat (`func_duel.py` lines
851-937): the coin picks the first striker; a successful defense turns the
defender into the winner (counter-kill), a failed defense leaves the
attacker the winner. -/
def ncWinner (rng : DuelRng) (p1 p2 : String) : String :=
  if rng.defenseSucceeds then (if rng.firstAttackerIsP1 then p2 else p1)
  else (if rng.firstAttackerIsP1 then p1 else p2)

/-- Loser of the normal single-exchange combat: the other side. -/
def ncLoser (rng : DuelRng) (p1 p2 : String) : String :=
  if rng.defenseSucceeds then (if rng.firstAttackerIsP1 then p1 else p2)
  else (if rng.firstAttackerIsP1 then p2 else p1)

/-- The `total_magic_power` accumulated in the single exchange: the attack
spell's power, plus — when the defense succeeds — a fixed 20 for the defense
spell and the counter spell's power (`func_duel.py` lines 862, 884, 900). -/
def ncPower (rng : DuelRng) : Int :=
  if rng.defenseSucceeds then
    spellPower rng.attackSpell + 20 + spellPower rng.counterSpell
  else spellPower rng.attackSpell

/-- The winner's point gain: ×5 with an elder wand (`func_duel.py` line 965). -/
def ncWinnerPoints (s : PStore) (winner : String) (power : Int) : Int :=
  if ((s winner).getD defaultPlayer).elderWand > 0 then power * 5 else power

/-- The loser's point loss: zeroed by a magic stone (`func_duel.py` line 955). -/
def ncLoserPoints (s : PStore) (loser : String) (power : Int) : Int :=
  if ((s loser).getD defaultPlayer).magicStone > 0 then 0 else power

/-- The single recorded consumed item,
`final_used_item = used_item_winner or used_item_loser`
(`func_duel.py` line 970): the winner's elder wand beats the loser's magic
stone; the invisibility cloak never reaches this path. -/
def ncUsedItem (s : PStore) (winner loser : String) : Option Item :=
  if ((s winner).getD defaultPlayer).elderWand > 0 then some .elderWand
  else if ((s loser).getD defaultPlayer).magicStone > 0 then some .magicStone
  else none

/-- The normal (non-Boss, no unilateral cloak) single-exchange combat of
`HarryPotterDuel.start_duel` (`func_duel.py` lines 795-1017): the first
striker casts one weighted spell; on a successful defense (+20 power) the
defender counter-casts and the original attacker loses, otherwise the
defender loses.  `total_magic_power` is the base for both deltas, adjusted
by the loser's magic stone and the winner's elder wand; the result is
persisted through `record_duel_result`. -/
def normalCombat (rng : DuelRng) (s : PStore) (p1 p2 : String) : DuelSummary :=
  { winner := ncWinner rng p1 p2, loser := ncLoser rng p1 p2,
    winnerPoints := ncWinnerPoints s (ncWinner rng p1 p2) (ncPower rng),
    loserPoints := ncLoserPoints s (ncLoser rng p1 p2) (ncPower rng),
    usedItem := ncUsedItem s (ncWinner rng p1 p2) (ncLoser rng p1 p2),
    store := recordDuelResult s (ncWinner rng p1 p2) (ncLoser rng p1 p2)
      (ncWinnerPoints s (ncWinner rng p1 p2) (ncPower rng))
      (ncLoserPoints s (ncLoser rng p1 p2) (ncPower rng))
      (ncUsedItem s (ncWinner rng p1 p2) (ncLoser rng p1 p2)) }

/-- `HarryPotterDuel.start_duel` (`func_duel.py` lines 616-1017).  Both rows
are first fetched (and lazily created) by `get_player_data`.  A Boss fight
(`player2 = "泡泡"`) short-circuits: a win grants +300 points, a win and one
of each item; a loss costs `MAX(1, score - 100)` points (lines 626-768).
Otherwise the invisibility-cloak ambush check runs on the fetched data
(lines 770-793): exactly one cloak side wins outright for a fixed 30/30
transfer with the cloak recorded as consumed via `_handle_direct_win`
(lines 1020-1060); two cloaks neutralize and combat proceeds normally. -/
def startDuel (rng : DuelRng) (store0 : PStore) (p1 p2 : String) : DuelSummary :=
  let s := ensurePlayer (ensurePlayer store0 p1) p2
  if p2 = bossName then
    if rng.bossWin then
      { winner := p1, loser := p2, winnerPoints := 300, loserPoints := 0,
        usedItem := none,
        store := updRow s p1 (fun d =>
          { d with elderWand := d.elderWand + 1, magicStone := d.magicStone + 1,
                   invisibilityCloak := d.invisibilityCloak + 1,
                   score := d.score + 300, wins := d.wins + 1,
                   totalMatches := d.totalMatches + 1 }) }
    else
      { winner := p2, loser := p1, winnerPoints := 0, loserPoints := 100,
        usedItem := none,
        store := updRow s p1 (fun d =>
          { d with score := max 1 (d.score - 100), losses := d.losses + 1,
                   totalMatches := d.totalMatches + 1 }) }
  else
    let d1 := (s p1).getD defaultPlayer
    let d2 := (s p2).getD defaultPlayer
    if d1.invisibilityCloak > 0 ∧ ¬ d2.invisibilityCloak > 0 then
      { winner := p1, loser := p2, winnerPoints := 30, loserPoints := 30,
        usedItem := some .invisibilityCloak,
        store := recordDuelResult s p1 p2 30 30 (some .invisibilityCloak) }
    else if ¬ d1.invisibilityCloak > 0 ∧ d2.invisibilityCloak > 0 then
      { winner := p2, loser := p1, winnerPoints := 30, loserPoints := 30,
        usedItem := some .invisibilityCloak,
        store := recordDuelResult s p2 p1 30 30 (some .invisibilityCloak) }
    else
      normalCombat rng s p1 p2

/-- Helper: an existing row is returned unchanged by `ensurePlayer`. -/
theorem ensurePlayer_apply_some (store : PStore) (name n : String) (d : PlayerData)
    (h : store n = some d) : ensurePlayer store name n = some d := by
  unfold ensurePlayer
  cases hn : store name with
  | some _ => exact h
  | none =>
      by_cases he : n = name
      · rw [he] at h; rw [h] at hn; cases hn
      · simp [he, h]

/-- Helper: a point update whose transform keeps a row's
`invisibility_cloak` count keeps every row's `invisibility_cloak` count. -/
theorem updRow_cloak (store : PStore) (name : String) (f : PlayerData → PlayerData)
    (hf : ∀ x, (f x).invisibilityCloak = x.invisibilityCloak)
    (n : String) (d : PlayerData) (h : store n = some d) :
    ∃ d', updRow store name f n = some d' ∧
      d'.invisibilityCloak = d.invisibilityCloak := by
  unfold updRow
  by_cases hn : n = name
  · subst hn
    exact ⟨f d, by simp [h], hf d⟩
  · exact ⟨d, by simp [hn, h], rfl⟩

/-- Helper: `record_duel_result` never changes any player's
`invisibility_cloak` count unless the used item is the cloak itself. -/
theorem recordDuelResult_cloak (store : PStore) (w l : String) (wp lp : Int)
    (item : Option Item) (hitem : item ≠ some Item.invisibilityCloak)
    (n : String) (d : PlayerData) (h : store n = some d) :
    (recordDuelResult store w l wp lp item n).map PlayerData.invisibilityCloak =
      some d.invisibilityCloak := by
  have h2 : ensurePlayer (ensurePlayer store w) l n = some d :=
    ensurePlayer_apply_some _ l n d (ensurePlayer_apply_some store w n d h)
  obtain ⟨d3, h3, hc3⟩ := updRow_cloak _ w
    (fun x => { x with score := x.score + wp, wins := x.wins + 1,
                       totalMatches := x.totalMatches + 1 })
    (fun _ => rfl) n d h2
  obtain ⟨d4, h4, hc4⟩ := updRow_cloak _ l
    (fun x => { x with score := max 1 (x.score - lp), losses := x.losses + 1,
                       totalMatches := x.totalMatches + 1 })
    (fun _ => rfl) n d3 h3
  unfold recordDuelResult
  rcases item with _ | it
  · simp only [h4, Option.map_some]
    exact congrArg some (hc4.trans hc3)
  · cases it with
    | invisibilityCloak => exact absurd rfl hitem
    | elderWand =>
        obtain ⟨d5, h5, hc5⟩ := updRow_cloak _ w
          (fun x => { x with elderWand := x.elderWand - 1 }) (fun _ => rfl) n d4 h4
        simp only [h5, Option.map_some]
        exact congrArg some ((hc5.trans hc4).trans hc3)
    | magicStone =>
        obtain ⟨d5, h5, hc5⟩ := updRow_cloak _ l
          (fun x => { x with magicStone := x.magicStone - 1 }) (fun _ => rfl) n d4 h4
        simp only [h5, Option.map_some]
        exact congrArg some ((hc5.trans hc4).trans hc3)

end Bubbles

namespace Bubbles

/-- Helper: the normal combat path never records the invisibility cloak as
the consumed item. -/
theorem ncUsedItem_ne_cloak (s : PStore) (w l : String) :
    ncUsedItem s w l ≠ some Item.invisibilityCloak := by
  unfold ncUsedItem
  split_ifs <;> simp

/-- Helper: normal combat leaves every player's `invisibility_cloak`
count unchanged. -/
theorem normalCombat_cloak (rng : DuelRng) (s : PStore) (p1 p2 : String)
    (n : String) (d : PlayerData) (h : s n = some d) :
    ((normalCombat rng s p1 p2).store n).map PlayerData.invisibilityCloak =
      some d.invisibilityCloak := by
  exact recordDuelResult_cloak s _ _ _ _ _ (ncUsedItem_ne_cloak s _ _) n d h

/-- Helper: when both players already have rows, the two opening
`get_player_data` calls leave the store untouched. -/
theorem ensure_both (store0 : PStore) (p1 p2 : String) (d1 d2 : PlayerData)
    (h1 : store0 p1 = some d1) (h2 : store0 p2 = some d2) :
    ensurePlayer (ensurePlayer store0 p1) p2 = store0 := by
  have e1 : ensurePlayer store0 p1 = store0 := by unfold ensurePlayer; rw [h1]
  rw [e1]; unfold ensurePlayer; rw [h2]

/-- C2: in a non-Boss duel, a unilateral invisibility cloak wins
immediately for its holder whatever the combat randomness: both scores
shift by the fixed 30 (the loser floored at 1) and exactly one cloak is
consumed from the winner; when both sides hold a cloak the duel falls
through to the normal probabilistic combat and neither cloak count
changes. -/
theorem c2_cloak_ambush (rng : DuelRng) (store0 : PStore) (p1 p2 : String)
    (d1 d2 : PlayerData) (h12 : p1 ≠ p2) (hBoss : p2 ≠ bossName)
    (h1 : store0 p1 = some d1) (h2 : store0 p2 = some d2) :
    (d1.invisibilityCloak > 0 → d2.invisibilityCloak = 0 →
      (startDuel rng store0 p1 p2).winner = p1 ∧
      (startDuel rng store0 p1 p2).winnerPoints = 30 ∧
      (startDuel rng store0 p1 p2).loserPoints = 30 ∧
      (startDuel rng store0 p1 p2).store p1 =
        some { d1 with score := d1.score + 30, wins := d1.wins + 1,
                       totalMatches := d1.totalMatches + 1,
                       invisibilityCloak := d1.invisibilityCloak - 1 } ∧
      (startDuel rng store0 p1 p2).store p2 =
        some { d2 with score := max 1 (d2.score - 30), losses := d2.losses + 1,
                       totalMatches := d2.totalMatches + 1 }) ∧
    (d1.invisibilityCloak = 0 → d2.invisibilityCloak > 0 →
      (startDuel rng store0 p1 p2).winner = p2 ∧
      (startDuel rng store0 p1 p2).winnerPoints = 30 ∧
      (startDuel rng store0 p1 p2).loserPoints = 30 ∧
      (startDuel rng store0 p1 p2).store p2 =
        some { d2 with score := d2.score + 30, wins := d2.wins + 1,
                       totalMatches := d2.totalMatches + 1,
                       invisibilityCloak := d2.invisibilityCloak - 1 } ∧
      (startDuel rng store0 p1 p2).store p1 =
        some { d1 with score := max 1 (d1.score - 30), losses := d1.losses + 1,
                       totalMatches := d1.totalMatches + 1 }) ∧
    (d1.invisibilityCloak > 0 → d2.invisibilityCloak > 0 →
      startDuel rng store0 p1 p2 = normalCombat rng store0 p1 p2 ∧
      ((startDuel rng store0 p1 p2).store p1).map PlayerData.invisibilityCloak =
        some d1.invisibilityCloak ∧
      ((startDuel rng store0 p1 p2).store p2).map PlayerData.invisibilityCloak =
        some d2.invisibilityCloak) := by
  have h21 : p2 ≠ p1 := fun h => h12 h.symm
  have hs : ensurePlayer (ensurePlayer store0 p1) p2 = store0 :=
    ensure_both store0 p1 p2 d1 d2 h1 h2
  refine ⟨?_, ?_, ?_⟩
  · intro hc1 hc2
    have hd : startDuel rng store0 p1 p2 =
        { winner := p1, loser := p2, winnerPoints := 30, loserPoints := 30,
          usedItem := some .invisibilityCloak,
          store := recordDuelResult store0 p1 p2 30 30 (some .invisibilityCloak) } := by
      unfold startDuel
      rw [if_neg hBoss, hs, h1, h2]
      simp [hc1, hc2]
    rw [hd]
    refine ⟨rfl, rfl, rfl, ?_, ?_⟩ <;>
      simp [recordDuelResult, ensurePlayer, updRow, h1, h2, h12, h21]
  · intro hc1 hc2
    have hd : startDuel rng store0 p1 p2 =
        { winner := p2, loser := p1, winnerPoints := 30, loserPoints := 30,
          usedItem := some .invisibilityCloak,
          store := recordDuelResult store0 p2 p1 30 30 (some .invisibilityCloak) } := by
      unfold startDuel
      rw [if_neg hBoss, hs, h1, h2]
      simp [hc1, hc2]
    rw [hd]
    refine ⟨rfl, rfl, rfl, ?_, ?_⟩ <;>
      simp [recordDuelResult, ensurePlayer, updRow, h1, h2, h12, h21]
  · intro hc1 hc2
    have hd : startDuel rng store0 p1 p2 = normalCombat rng store0 p1 p2 := by
      unfold startDuel
      rw [if_neg hBoss, hs, h1, h2]
      simp [hc1, hc2, Nat.pos_of_ne_zero, Nat.not_eq_zero_of_lt]
    rw [hd]
    exact ⟨rfl, normalCombat_cloak rng store0 p1 p2 p1 d1 h1,
      normalCombat_cloak rng store0 p1 p2 p2 d2 h2⟩

/-- A cloak-holding challenger against a cloakless opponent, for the C2
witness: `"Cloaky"` holds 2 cloaks, `"Dueler"` none. -/
def w2Store : PStore := fun n =>
  if n = "Cloaky" then some { defaultPlayer with invisibilityCloak := 2 }
  else if n = "Dueler" then some { defaultPlayer with score := 20 }
  else none

/-- A fixed random oracle for witnesses. -/
def w2Rng : DuelRng :=
  { bossWin := false, firstAttackerIsP1 := true, attackSpell := 3,
    defenseSucceeds := true, counterSpell := 5 }

theorem c2_cloak_ambush_witness :
    (startDuel w2Rng w2Store "Cloaky" "Dueler").winner = "Cloaky" ∧
    (startDuel w2Rng w2Store "Cloaky" "Dueler").winnerPoints = 30 ∧
    (startDuel w2Rng w2Store "Cloaky" "Dueler").loserPoints = 30 ∧
    (startDuel w2Rng w2Store "Cloaky" "Dueler").store "Cloaky" =
      some { defaultPlayer with score := 1030, wins := 1, totalMatches := 1,
                                invisibilityCloak := 1 } ∧
    (startDuel w2Rng w2Store "Cloaky" "Dueler").store "Dueler" =
      some { defaultPlayer with score := 1, losses := 1, totalMatches := 1 } := by
  have h := (c2_cloak_ambush w2Rng w2Store "Cloaky" "Dueler"
    { defaultPlayer with invisibilityCloak := 2 }
    { defaultPlayer with score := 20 }
    (by decide) (by decide) rfl rfl).1 (by decide) (by decide)
  exact ⟨h.1, h.2.1, h.2.2.1, h.2.2.2.1.trans (by decide),
    h.2.2.2.2.trans (by decide)⟩

end Bubbles

namespace Bubbles

/-- The success-path side effects aside, the pure read/insert part of
`DuelRankSystem.get_player_data` (`func_duel.py` lines 76-135): look the row
up, or insert and return the default row. -/
def getPlayerDataCore (store : PStore) (name : String) : PlayerData × PStore :=
  match store name with
  | some d => (d, store)
  | none => (defaultPlayer, fun n => if n = name then some defaultPlayer else store n)

/-- `DuelRankSystem.get_player_data` with its `except sqlite3.Error` handler
(`func_duel.py` lines 137-150): a SQLite failure — modelled by the explicit
`dbError` flag — is swallowed and an in-memory default record is returned,
with the persistent store untouched (nothing was committed). -/
def getPlayerData (dbError : Bool) (store : PStore) (name : String) :
    PlayerData × PStore :=
  if dbError then (defaultPlayer, store) else getPlayerDataCore store name

/-- C10: on an underlying SQLite error `get_player_data` does not raise and
does not insert: it returns the defaults of a brand-new player (score 1000,
zero counters, zero items) and leaves the store exactly as it was. -/
theorem c10_get_player_data_error (dbError : Bool) (store : PStore) (name : String)
    (h : dbError = true) :
    getPlayerData dbError store name = (defaultPlayer, store) ∧
    defaultPlayer.score = 1000 ∧ defaultPlayer.wins = 0 ∧
    defaultPlayer.losses = 0 ∧ defaultPlayer.totalMatches = 0 ∧
    defaultPlayer.elderWand = 0 ∧ defaultPlayer.magicStone = 0 ∧
    defaultPlayer.invisibilityCloak = 0 := by
  subst h
  exact ⟨rfl, rfl, rfl, rfl, rfl, rfl, rfl, rfl⟩

theorem c10_get_player_data_error_witness :
    getPlayerData true w1Store "Alice" = (defaultPlayer, w1Store) ∧
    defaultPlayer.score = 1000 :=
  ⟨(c10_get_player_data_error true w1Store "Alice" rfl).1,
   (c10_get_player_data_error true w1Store "Alice" rfl).2.1⟩

/-- The success probability computed by `attempt_sneak_attack` before
clamping (`func_duel.py` lines 1372-1381), with the float constants
`0.3`/`0.4` embedded as the exact rationals `3/10`/`2/5`: base 30%, plus —
only when both ranks are available, the group is non-empty and the
attacker\'s rank is numerically larger (worse) —
`min((rank_difference / total_players) * 0.4, 0.4)`. -/
def sneakProbRaw (attackerRank targetRank : Option Int) (totalPlayers : Nat) : ℚ :=
  match attackerRank, targetRank with
  | some ar, some tr =>
      if 0 < totalPlayers ∧ tr < ar then
        3 / 10 + min (((ar : ℚ) - (tr : ℚ)) / (totalPlayers : ℚ) * (2 / 5)) (2 / 5)
      else 3 / 10
  | _, _ => 3 / 10

/-- The final probability: `success_prob = max(0, min(1, success_prob))`
(`func_duel.py` line 1384). -/
def sneakSuccessProb (attackerRank targetRank : Option Int)
    (totalPlayers : Nat) : ℚ :=
  max 0 (min 1 (sneakProbRaw attackerRank targetRank totalPlayers))

/-- C9: the sneak-attack probability is the 0.3 base plus
`min(((attacker_rank - target_rank) / total_players) * 0.4, 0.4)` exactly
when both ranks are known, the group is non-empty and the attacker is
ranked strictly worse; in every other case — unknown rank, empty group, or
attacker not worse — it is the bare 0.3 base; and for every combination of
inputs it lies within `[0, 1]`. -/
theorem c9_sneak_attack_prob (attackerRank targetRank : Option Int)
    (totalPlayers : Nat) :
    (0 ≤ sneakSuccessProb attackerRank targetRank totalPlayers ∧
      sneakSuccessProb attackerRank targetRank totalPlayers ≤ 1) ∧
    (∀ ar tr, attackerRank = some ar → targetRank = some tr →
      0 < totalPlayers → tr < ar →
      sneakSuccessProb attackerRank targetRank totalPlayers =
        3 / 10 + min (((ar : ℚ) - (tr : ℚ)) / (totalPlayers : ℚ) * (2 / 5)) (2 / 5)) ∧
    (∀ ar tr, attackerRank = some ar → targetRank = some tr → ¬ tr < ar →
      sneakSuccessProb attackerRank targetRank totalPlayers = 3 / 10) ∧
    (totalPlayers = 0 →
      sneakSuccessProb attackerRank targetRank totalPlayers = 3 / 10) ∧
    (attackerRank = none →
      sneakSuccessProb attackerRank targetRank totalPlayers = 3 / 10) := by
  have hbase : max (0 : ℚ) (min 1 (3 / 10)) = 3 / 10 := by norm_num
  refine ⟨⟨le_max_left 0 _, max_le (by norm_num) (min_le_left 1 _)⟩, ?_, ?_, ?_, ?_⟩
  · intro ar tr har htr hpos hlt
    subst har; subst htr
    have hraw : sneakProbRaw (some ar) (some tr) totalPlayers =
        3 / 10 + min (((ar : ℚ) - (tr : ℚ)) / (totalPlayers : ℚ) * (2 / 5)) (2 / 5) := by
      unfold sneakProbRaw
      exact if_pos ⟨hpos, hlt⟩
    have hd : (0 : ℚ) ≤ ((ar : ℚ) - (tr : ℚ)) / (totalPlayers : ℚ) * (2 / 5) := by
      have hle : (tr : ℚ) ≤ (ar : ℚ) := by exact_mod_cast hlt.le
      have hnum : (0 : ℚ) ≤ (ar : ℚ) - (tr : ℚ) := by linarith
      exact mul_nonneg (div_nonneg hnum (by positivity)) (by norm_num)
    have hmin0 : (0 : ℚ) ≤ min (((ar : ℚ) - (tr : ℚ)) / (totalPlayers : ℚ) * (2 / 5)) (2 / 5) :=
      le_min hd (by norm_num)
    have hmin1 : min (((ar : ℚ) - (tr : ℚ)) / (totalPlayers : ℚ) * (2 / 5)) (2 / 5) ≤ 2 / 5 :=
      min_le_right _ _
    unfold sneakSuccessProb
    rw [hraw, min_eq_right (by linarith), max_eq_right (by linarith)]
  · intro ar tr har htr hnlt
    subst har; subst htr
    have hraw : sneakProbRaw (some ar) (some tr) totalPlayers = 3 / 10 := by
      unfold sneakProbRaw
      exact if_neg (fun hc => hnlt hc.2)
    unfold sneakSuccessProb
    rw [hraw]; exact hbase
  · intro h0
    subst h0
    have hraw : sneakProbRaw attackerRank targetRank 0 = 3 / 10 := by
      unfold sneakProbRaw
      cases attackerRank with
      | none => rfl
      | some ar =>
          cases targetRank with
          | none => rfl
          | some tr => exact if_neg (fun hc => absurd hc.1 (lt_irrefl 0))
    unfold sneakSuccessProb
    rw [hraw]; exact hbase
  · intro h
    subst h
    unfold sneakSuccessProb
    have hraw : sneakProbRaw none targetRank totalPlayers = 3 / 10 := by
      unfold sneakProbRaw; rfl
    rw [hraw]; exact hbase

theorem c9_sneak_attack_prob_witness :
    sneakSuccessProb (some 8) (some 2) 10 =
      3 / 10 + min ((((8 : Int) : ℚ) - ((2 : Int) : ℚ)) / ((10 : Nat) : ℚ) * (2 / 5)) (2 / 5) ∧
    sneakSuccessProb (some 2) (some 8) 0 = 3 / 10 := by
  refine ⟨(c9_sneak_attack_prob (some 8) (some 2) 10).2.1 8 2 rfl rfl (by norm_num) (by norm_num), ?_⟩
  exact (c9_sneak_attack_prob (some 2) (some 8) 0).2.2.2.1 rfl

end Bubbles

namespace Bubbles

/-- Scope of a command (`src/commands/models.py` line 18). -/
inductive Scope where
  | group
  | priv
  | both
deriving DecidableEq, Repr

/-- Outcome of evaluating a command's pattern against a context
(`router.py` lines 66-79): the pattern call may raise (caught by the outer
`except`, line 102), may not match (`None`), or may match. -/
inductive PatResult where
  | perr
  | pnone
  | psome
deriving DecidableEq, Repr

/-- Outcome of running a command's handler (`router.py` lines 86-101): it
may raise (caught, routing continues) or return a truthy/falsy result. -/
inductive HandResult where
  | herr
  | hret (truthy : Bool)
deriving DecidableEq, Repr

/-- The fields of the message context `CommandRouter.dispatch` inspects for
eligibility (`src/commands/context.py` via `router.py` lines 54-62).  The
text itself is folded into the pattern/handler functions. -/
structure Ctx where
  isGroup : Bool
  isAtBot : Bool

/-- A command descriptor (`src/commands/models.py` lines 11-22).  The
regex-or-callable `pattern` and the `handler` are embedded as functions of
the context with explicit exception outcomes. -/
structure Command where
  name : String
  scope : Scope
  needAt : Bool
  priority : Int
  pattern : Ctx → PatResult
  handler : Ctx → HandResult

/-- Scope admission (`router.py` lines 55-59): skip unless `both`, or
`group` in a group chat, or `private` outside one. -/
def scopeOk (c : Command) (ctx : Ctx) : Bool :=
  match c.scope with
  | .both => true
  | .group => ctx.isGroup
  | .priv => !ctx.isGroup

/-- Mention gating (`router.py` lines 61-63): a command is skipped when the
message is a group message, the command requires an @-mention and the bot
was not mentioned. -/
def skipForAt (c : Command) (ctx : Ctx) : Bool :=
  ctx.isGroup && c.needAt && !ctx.isAtBot

/-- The body of `CommandRouter.dispatch` (`router.py` lines 53-113) over an
already-ordered command list: try each command in turn; skip on scope or
mention gating; a raising or non-matching pattern continues; an invoked
handler stops routing with `True` exactly when it returns truthy, and a
raising or falsy handler continues.  Returns the handled flag and the trace
of commands whose handler was actually invoked. -/
def dispatchList : List Command → Ctx → Bool × List Command
  | [], _ => (false, [])
  | c :: rest, ctx =>
    if ¬ scopeOk c ctx then dispatchList rest ctx
    else if skipForAt c ctx then dispatchList rest ctx
    else
      match c.pattern ctx with
      | .perr => dispatchList rest ctx
      | .pnone => dispatchList rest ctx
      | .psome =>
        match c.handler ctx with
        | .hret true => (true, [c])
        | .hret false =>
            let r := dispatchList rest ctx
            (r.1, c :: r.2)
        | .herr =>
            let r := dispatchList rest ctx
            (r.1, c :: r.2)

/-- `CommandRouter.__init__` sorts the registered commands by ascending
priority (`router.py` line 19); `insertionSort` is stable like Python's
`sorted`. -/
def sortCommands (cmds : List Command) : List Command :=
  List.insertionSort (fun a b => a.priority ≤ b.priority) cmds

/-- `CommandRouter.dispatch` (`router.py` lines 36-113): route over the
priority-sorted command list. -/
def dispatch (cmds : List Command) (ctx : Ctx) : Bool :=
  (dispatchList (sortCommands cmds) ctx).1

/-- The trace of handlers `dispatch` invokes. -/
def dispatchInvoked (cmds : List Command) (ctx : Ctx) : List Command :=
  (dispatchList (sortCommands cmds) ctx).2

/-- Helper: every command whose handler `dispatchList` invokes passed the
mention gate. -/
theorem dispatchList_invoked_not_skipped (cmds : List Command) (ctx : Ctx) :
    ∀ c ∈ (dispatchList cmds ctx).2, skipForAt c ctx = false := by
  induction cmds with
  | nil => intro c hc; cases hc
  | cons c0 rest ih =>
      intro c hc
      unfold dispatchList at hc
      by_cases hs : scopeOk c0 ctx
      · rw [if_neg (by simpa using hs)] at hc
        by_cases hk : skipForAt c0 ctx
        · rw [if_pos hk] at hc
          exact ih c hc
        · rw [if_neg hk] at hc
          cases hp : c0.pattern ctx with
          | perr => rw [hp] at hc; exact ih c hc
          | pnone => rw [hp] at hc; exact ih c hc
          | psome =>
              rw [hp] at hc
              cases hh : c0.handler ctx with
              | herr =>
                  rw [hh] at hc
                  rcases List.mem_cons.mp hc with h | h
                  · subst h; simpa using hk
                  · exact ih c h
              | hret b =>
                  cases b with
                  | true =>
                      rw [hh] at hc
                      rcases List.mem_cons.mp hc with h | h
                      · subst h; simpa using hk
                      · cases h
                  | false =>
                      rw [hh] at hc
                      rcases List.mem_cons.mp hc with h | h
                      · subst h; simpa using hk
                      · exact ih c h
      · rw [if_pos (by simpa using hs)] at hc
        exact ih c hc

/-- C7: for a group message in which the bot was not mentioned, `dispatch`
never invokes the handler of any command with `need_at = true`, whatever
the commands' priorities or positions in the list. -/
theorem c7_need_at_gating (cmds : List Command) (ctx : Ctx)
    (hg : ctx.isGroup = true) (hm : ctx.isAtBot = false) :
    ∀ c ∈ dispatchInvoked cmds ctx, c.needAt = false := by
  intro c hc
  have h := dispatchList_invoked_not_skipped (sortCommands cmds) ctx c hc
  unfold skipForAt at h
  rw [hg, hm] at h
  simpa using h

/-- A two-command list for the router witnesses: a mention-gated
high-priority command whose handler always succeeds, and an ungated
fallback whose handler first errors in one variant and succeeds in
another. -/
def wCmdGated : Command :=
  { name := "gated", scope := .both, needAt := true, priority := 1,
    pattern := fun _ => .psome, handler := fun _ => .hret true }

def wCmdFallback : Command :=
  { name := "fallback", scope := .both, needAt := false, priority := 2,
    pattern := fun _ => .psome, handler := fun _ => .hret true }

theorem c7_need_at_gating_witness :
    wCmdFallback.needAt = false ∧
    dispatchInvoked [wCmdGated, wCmdFallback] ⟨true, false⟩ = [wCmdFallback] := by
  have heval : dispatchInvoked [wCmdGated, wCmdFallback] ⟨true, false⟩ =
      [wCmdFallback] := rfl
  refine ⟨?_, heval⟩
  exact c7_need_at_gating [wCmdGated, wCmdFallback] ⟨true, false⟩ rfl rfl
    wCmdFallback (heval ▸ List.mem_singleton.mpr rfl)

end Bubbles

namespace Bubbles

/-- A command is eligible for a context when it passes the scope check and
the mention gate, and its pattern matches. -/
def eligibleMatch (c : Command) (ctx : Ctx) : Prop :=
  scopeOk c ctx = true ∧ skipForAt c ctx = false ∧ c.pattern ctx = PatResult.psome

/-- Helper: `dispatchList` reports unhandled exactly when no eligible
matching command's handler returns truthy. -/
theorem dispatchList_false_iff (l : List Command) (ctx : Ctx) :
    (dispatchList l ctx).1 = false ↔
      ∀ c ∈ l, eligibleMatch c ctx → c.handler ctx ≠ HandResult.hret true := by
  induction l with
  | nil => simp [dispatchList]
  | cons c0 rest ih =>
      unfold dispatchList
      by_cases hs : scopeOk c0 ctx
      · rw [if_neg (by simpa using hs)]
        by_cases hk : skipForAt c0 ctx
        · rw [if_pos hk]
          rw [ih]
          constructor
          · intro h c hc he
            rcases List.mem_cons.mp hc with h1 | h1
            · subst h1
              exact absurd he.2.1 (by simpa using hk)
            · exact h c h1 he
          · intro h c hc he
            exact h c (List.mem_cons_of_mem c0 hc) he
        · rw [if_neg hk]
          cases hp : c0.pattern ctx with
          | perr =>
              rw [ih]
              constructor
              · intro h c hc he
                rcases List.mem_cons.mp hc with h1 | h1
                · subst h1
                  have h22 := he.2.2
                  rw [hp] at h22
                  exact absurd h22 (by simp)
                · exact h c h1 he
              · intro h c hc he
                exact h c (List.mem_cons_of_mem c0 hc) he
          | pnone =>
              rw [ih]
              constructor
              · intro h c hc he
                rcases List.mem_cons.mp hc with h1 | h1
                · subst h1
                  have h22 := he.2.2
                  rw [hp] at h22
                  exact absurd h22 (by simp)
                · exact h c h1 he
              · intro h c hc he
                exact h c (List.mem_cons_of_mem c0 hc) he
          | psome =>
              cases hh : c0.handler ctx with
              | hret b =>
                  cases b with
                  | true =>
                      simp only [List.mem_cons]
                      constructor
                      · intro h; cases h
                      · intro h
                        exact absurd hh
                          (h c0 (Or.inl rfl) ⟨hs, by simpa using hk, hp⟩)
                  | false =>
                      simp only []
                      rw [ih]
                      constructor
                      · intro h c hc he
                        rcases List.mem_cons.mp hc with h1 | h1
                        · subst h1; rw [hh]; simp
                        · exact h c h1 he
                      · intro h c hc he
                        exact h c (List.mem_cons_of_mem c0 hc) he
              | herr =>
                  simp only []
                  rw [ih]
                  constructor
                  · intro h c hc he
                    rcases List.mem_cons.mp hc with h1 | h1
                    · subst h1; rw [hh]; simp
                    · exact h c h1 he
                  · intro h c hc he
                    exact h c (List.mem_cons_of_mem c0 hc) he
      · rw [if_pos (by simpa using hs)]
        rw [ih]
        constructor
        · intro h c hc he
          rcases List.mem_cons.mp hc with h1 | h1
          · subst h1
            exact absurd he.1 (by simpa using hs)
          · exact h c h1 he
        · intro h c hc he
          exact h c (List.mem_cons_of_mem c0 hc) he

/-- C8: a raising or falsy handler is not fatal — routing on such a head
command equals routing on the remaining commands; a truthy handler stops
routing with success immediately; the command list is iterated in ascending
priority order; and `dispatch` reports unhandled exactly when no eligible
matching command's handler returns truthy. -/
theorem c8_router_continues (ctx : Ctx) :
    (∀ c rest, eligibleMatch c ctx →
      (c.handler ctx = HandResult.herr ∨ c.handler ctx = HandResult.hret false) →
      dispatchList (c :: rest) ctx = ((dispatchList rest ctx).1,
        c :: (dispatchList rest ctx).2)) ∧
    (∀ c rest, eligibleMatch c ctx → c.handler ctx = HandResult.hret true →
      (dispatchList (c :: rest) ctx).1 = true) ∧
    (∀ cmds, List.Sorted (fun a b : Command => a.priority ≤ b.priority)
      (sortCommands cmds)) ∧
    (∀ cmds, dispatch cmds ctx = false ↔
      ∀ c ∈ cmds, eligibleMatch c ctx → c.handler ctx ≠ HandResult.hret true) := by
  refine ⟨?_, ?_, ?_, ?_⟩
  · intro c rest he hh
    rcases hh with hh | hh <;>
      simp [dispatchList, he.1, he.2.1, he.2.2, hh]
  · intro c rest he hh
    simp [dispatchList, he.1, he.2.1, he.2.2, hh]
  · intro cmds
    haveI h1 : IsTotal Command (fun a b => a.priority ≤ b.priority) :=
      ⟨fun a b => le_total a.priority b.priority⟩
    haveI h2 : IsTrans Command (fun a b => a.priority ≤ b.priority) :=
      ⟨fun a b c hab hbc => le_trans hab hbc⟩
    exact List.sorted_insertionSort (fun a b => a.priority ≤ b.priority) cmds
  · intro cmds
    unfold dispatch
    rw [dispatchList_false_iff]
    constructor
    · intro h c hc he
      exact h c ((List.perm_insertionSort
        (fun a b : Command => a.priority ≤ b.priority) cmds).mem_iff.mpr hc) he
    · intro h c hc he
      exact h c ((List.perm_insertionSort
        (fun a b : Command => a.priority ≤ b.priority) cmds).mem_iff.mp hc) he

/-- A command whose handler always raises, for the C8 witness. -/
def wCmdErr : Command :=
  { name := "thrower", scope := .both, needAt := false, priority := 1,
    pattern := fun _ => .psome, handler := fun _ => .herr }

theorem c8_router_continues_witness :
    dispatchList [wCmdErr, wCmdFallback] ⟨false, false⟩ =
      ((dispatchList [wCmdFallback] ⟨false, false⟩).1,
        wCmdErr :: (dispatchList [wCmdFallback] ⟨false, false⟩).2) ∧
    dispatch [wCmdErr] ⟨false, false⟩ = false := by
  constructor
  · exact (c8_router_continues ⟨false, false⟩).1 wCmdErr [wCmdFallback]
      ⟨rfl, rfl, rfl⟩ (Or.inl rfl)
  · refine ((c8_router_continues ⟨false, false⟩).2.2.2 [wCmdErr]).mpr ?_
    intro c hc he
    rcases List.mem_singleton.mp hc with rfl
    intro h
    cases h

end Bubbles

namespace Bubbles

/-- A time of day to the minute, the parse of an `"HH:MM"` string. -/
structure HM where
  hour : Nat
  minute : Nat
deriving DecidableEq, Repr

/-- `"HH:MM" <= "HH:MM"` string comparison of zero-padded times
(= lexicographic on (hour, minute)), as used by
`current_hm >= reminder["time_str"]` (`func_reminder.py` line 209) and the
weekly SQL `time_str <= ?` (line 230). -/
def HM.leB (a b : HM) : Bool :=
  if a.hour < b.hour then true
  else if a.hour = b.hour then decide (a.minute ≤ b.minute)
  else false

/-- A `datetime` value: an absolute day number plus time of day.
`day % 7` is the weekday (`datetime.weekday()`, Monday = 0 under a suitable
epoch alignment). -/
structure DT where
  day : Nat
  hour : Nat
  minute : Nat
  second : Nat
deriving DecidableEq, Repr

/-- The `"%H:%M"` projection `now.strftime("%H:%M")`. -/
def DT.hm (t : DT) : HM := ⟨t.hour, t.minute⟩

/-- Python `datetime <` (lexicographic to the second; microseconds are not
modelled — the schedule instants compared against have them zeroed). -/
def DT.ltB (a b : DT) : Bool :=
  if a.day ≠ b.day then decide (a.day < b.day)
  else if a.hour ≠ b.hour then decide (a.hour < b.hour)
  else if a.minute ≠ b.minute then decide (a.minute < b.minute)
  else decide (a.second < b.second)

/-- Python `datetime <=`. -/
def DT.leB (a b : DT) : Bool := !DT.ltB b a

/-- `"YYYY-MM-DD HH:MM" <= "YYYY-MM-DD HH:MM"` string comparison of
zero-padded stamps (= lexicographic to the minute), as used by the ONCE
query `time_str <= ?` (`func_reminder.py` lines 188-192). -/
def DT.leMinuteB (a b : DT) : Bool :=
  if a.day ≠ b.day then decide (a.day < b.day)
  else if a.hour ≠ b.hour then decide (a.hour < b.hour)
  else decide (a.minute ≤ b.minute)

/-- The three reminder kinds of the `type` column
(`CHECK(type IN ('once','daily','weekly'))`, `func_reminder.py` line 51). -/
inductive RKind where
  | once
  | daily
  | weekly
deriving DecidableEq, Repr

/-- What a stored `time_str` string parses as: an absolute
`"%Y-%m-%d %H:%M"` stamp, a `"%H:%M"` time of day, or neither.
`add_reminder` only ever stores the kind-consistent first two. -/
inductive TimeField where
  | absVal (d : DT)
  | todVal (t : HM)
  | badVal
deriving DecidableEq, Repr

/-- One row of the `reminders` table (`func_reminder.py` lines 47-59). -/
structure Reminder where
  id : String
  wxid : String
  kind : RKind
  time : TimeField
  content : String
  createdAt : DT
  lastTriggeredAt : Option DT
  weekday : Option Int
  roomid : Option String
deriving DecidableEq, Repr

/-- Exact string membership in an id list (SQL `WHERE id = ?` batches). -/
def idMem (i : String) : List String → Bool
  | [] => false
  | j :: rest => if j = i then true else idMem i rest

theorem idMem_iff (i : String) (l : List String) : idMem i l = true ↔ i ∈ l := by
  induction l with
  | nil => simp [idMem]
  | cons j rest ih =>
      unfold idMem
      by_cases h : j = i
      · simp [h]
      · simp only [if_neg h, ih, List.mem_cons]
        constructor
        · exact Or.inr
        · intro hm
          rcases hm with hm | hm
          · exact absurd hm.symm h
          · exact hm

/-- Due test for a ONCE row (`func_reminder.py` lines 188-192):
`type = 'once' AND time_str <= now` (string compare, minute precision). -/
def onceDueB (r : Reminder) (now : DT) : Bool :=
  r.kind == RKind.once &&
    match r.time with
    | .absVal d => DT.leMinuteB d now
    | _ => false

/-- "Today's scheduled instant"
`now.replace(hour=trigger.hour, minute=trigger.minute, second=0,
microsecond=0)` (`func_reminder.py` lines 218-219, 244-245). -/
def schedToday (t : HM) (now : DT) : DT := ⟨now.day, t.hour, t.minute, 0⟩

/-- The per-period gate (`func_reminder.py` lines 222, 248):
`last_triggered_dt is None or last_triggered_dt < today_trigger_dt`. -/
def gateOpenB (last : Option DT) (sched : DT) : Bool :=
  match last with
  | none => true
  | some l => DT.ltB l sched

/-- Due test for a DAILY row (`func_reminder.py` lines 203-225):
time of day reached and the daily gate open. -/
def dailyDueB (r : Reminder) (now : DT) : Bool :=
  r.kind == RKind.daily &&
    match r.time with
    | .todVal t => HM.leB t now.hm && gateOpenB r.lastTriggeredAt (schedToday t now)
    | _ => false

/-- Due test for a WEEKLY row (`func_reminder.py` lines 227-251):
matching weekday, time of day reached, and the same gate. -/
def weeklyDueB (r : Reminder) (now : DT) : Bool :=
  r.kind == RKind.weekly && r.weekday == some ((now.day % 7 : Nat) : Int) &&
    match r.time with
    | .todVal t => HM.leB t now.hm && gateOpenB r.lastTriggeredAt (schedToday t now)
    | _ => false

/-- The rows one `check_and_trigger_reminders` tick fires, in delivery
order: due ONCE rows, then due DAILY rows, then due WEEKLY rows. -/
def firedRows (now : DT) (store : List Reminder) : List Reminder :=
  store.filter (onceDueB · now) ++ store.filter (dailyDueB · now) ++
    store.filter (weeklyDueB · now)

/-- The ids batch-deleted by the tick (fired ONCE rows,
`func_reminder.py` lines 254-258). -/
def onceIdsToDelete (now : DT) (store : List Reminder) : List String :=
  (store.filter (onceDueB · now)).map (·.id)

/-- The ids whose `last_triggered_at` the tick batch-updates to `now`
(fired DAILY and WEEKLY rows, `func_reminder.py` lines 260-263). -/
def idsToUpdate (now : DT) (store : List Reminder) : List String :=
  (store.filter (dailyDueB · now)).map (·.id) ++
    (store.filter (weeklyDueB · now)).map (·.id)

/-- The store after one `check_and_trigger_reminders` tick at `now`
(`func_reminder.py` lines 172-267): fired ONCE rows are deleted by id and
fired DAILY/WEEKLY rows get `last_triggered_at = now` by id, all in one
transaction. -/
def checkUpdate (now : DT) (store : List Reminder) : List Reminder :=
  (store.filter (fun r => !(idMem r.id (onceIdsToDelete now store)))).map
    (fun r => if idMem r.id (idsToUpdate now store) then
        { r with lastTriggeredAt := some now } else r)

/-- The delivery side effect of one fired row
(`_send_reminder`, `func_reminder.py` lines 275-295). -/
structure Delivery where
  wxid : String
  content : String
  roomid : Option String
deriving DecidableEq, Repr

/-- The deliveries one tick emits. -/
def checkDeliveries (now : DT) (store : List Reminder) : List Delivery :=
  (firedRows now store).map (fun r => ⟨r.wxid, r.content, r.roomid⟩)

end Bubbles

namespace Bubbles

/-- Helper: once a daily/weekly reminder has fired at `now1` (so its time
of day had been reached), `last_triggered_at = now1` is not earlier than
the same trigger's scheduled instant on the same calendar day — the gate
stays closed for the rest of that day. -/
theorem gate_closed (T : HM) (now1 now2 : DT)
    (hle : HM.leB T now1.hm = true) (hday : now2.day = now1.day) :
    DT.ltB now1 (schedToday T now2) = false := by
  unfold HM.leB DT.hm at hle
  unfold DT.ltB schedToday
  simp only [hday]
  split_ifs at hle with h1 h2 <;> split_ifs <;> simp_all <;> omega

/-- Helper: every row of the post-tick store comes from a pre-tick row,
either unchanged or with `last_triggered_at` stamped, and keeps its id. -/
theorem mem_checkUpdate (now : DT) (store : List Reminder) (x : Reminder)
    (hx : x ∈ checkUpdate now store) :
    ∃ y ∈ store,
      x = (if idMem y.id (idsToUpdate now store) then
            { y with lastTriggeredAt := some now } else y) ∧ x.id = y.id ∧
      idMem y.id (onceIdsToDelete now store) = false := by
  obtain ⟨y, hyf, hxy⟩ := List.mem_map.mp hx
  have hfil := List.mem_filter.mp hyf
  refine ⟨y, hfil.1, hxy.symm, ?_, by simpa using hfil.2⟩
  rw [← hxy]
  split <;> rfl

/-- C3: once a DAILY reminder fires in a `check_and_trigger_reminders`
tick — which stamps `last_triggered_at` with the tick's `now` — no tick on
the same calendar day fires it again: the stamped row fails the
`last_triggered_at < today's scheduled instant` gate. -/
theorem c3_daily_once_per_day (store : List Reminder) (r : Reminder)
    (now1 now2 : DT) (T : HM)
    (hr : r ∈ store)
    (huniq : ∀ x ∈ store, x.id = r.id → x = r)
    (hkind : r.kind = RKind.daily)
    (htime : r.time = TimeField.todVal T)
    (hfire : dailyDueB r now1 = true)
    (hday : now2.day = now1.day) :
    r ∈ firedRows now1 store ∧
    (∀ x ∈ checkUpdate now1 store, x.id = r.id →
      x = { r with lastTriggeredAt := some now1 }) ∧
    (∀ x ∈ firedRows now2 (checkUpdate now1 store), x.id ≠ r.id) := by
  have hTle : HM.leB T now1.hm = true := by
    have h := hfire
    simp only [dailyDueB, htime, hkind, Bool.and_eq_true, beq_self_eq_true] at h
    exact h.2.1
  have hrUpd : idMem r.id (idsToUpdate now1 store) = true := by
    rw [idMem_iff]
    unfold idsToUpdate
    exact List.mem_append.mpr (Or.inl
      (List.mem_map.mpr ⟨r, List.mem_filter.mpr ⟨hr, hfire⟩, rfl⟩))
  have hpart2 : ∀ x ∈ checkUpdate now1 store, x.id = r.id →
      x = { r with lastTriggeredAt := some now1 } := by
    intro x hx hid
    obtain ⟨y, hy, hxy, hidxy, _⟩ := mem_checkUpdate now1 store x hx
    have hyr : y = r := huniq y hy (hidxy ▸ hid)
    subst hyr
    rw [hxy, if_pos hrUpd]
  refine ⟨?_, hpart2, ?_⟩
  · unfold firedRows
    exact List.mem_append.mpr (Or.inl (List.mem_append.mpr (Or.inr
      (List.mem_filter.mpr ⟨hr, hfire⟩))))
  · intro x hx hid
    have hxu : x ∈ checkUpdate now1 store ∧
        (onceDueB x now2 = true ∨ dailyDueB x now2 = true ∨
          weeklyDueB x now2 = true) := by
      unfold firedRows at hx
      rcases List.mem_append.mp hx with h | h
      · rcases List.mem_append.mp h with h | h
        · have h' := List.mem_filter.mp h
          exact ⟨h'.1, Or.inl h'.2⟩
        · have h' := List.mem_filter.mp h
          exact ⟨h'.1, Or.inr (Or.inl h'.2)⟩
      · have h' := List.mem_filter.mp h
        exact ⟨h'.1, Or.inr (Or.inr h'.2)⟩
    have hx' : x = { r with lastTriggeredAt := some now1 } :=
      hpart2 x hxu.1 hid
    subst hx'
    rcases hxu.2 with hdue | hdue | hdue
    · simp [onceDueB, hkind] at hdue
    · simp only [dailyDueB, htime, hkind, Bool.and_eq_true] at hdue
      have hgate := hdue.2.2
      simp only [gateOpenB] at hgate
      rw [gate_closed T now1 now2 hTle hday] at hgate
      cases hgate
    · simp [weeklyDueB, hkind] at hdue

/-- A concrete daily reminder and two same-day instants for the C3
witness: trigger 09:00, first tick 09:05, second tick 12:00. -/
def w3Rem : Reminder :=
  { id := "rem-daily-1", wxid := "user-1", kind := RKind.daily,
    time := TimeField.todVal ⟨9, 0⟩, content := "drink water",
    createdAt := ⟨100, 8, 0, 0⟩, lastTriggeredAt := none,
    weekday := none, roomid := none }

theorem c3_daily_once_per_day_witness :
    w3Rem ∈ firedRows ⟨100, 9, 5, 30⟩ [w3Rem] ∧
    (∀ x ∈ checkUpdate ⟨100, 9, 5, 30⟩ [w3Rem], x.id = w3Rem.id →
      x = { w3Rem with lastTriggeredAt := some ⟨100, 9, 5, 30⟩ }) ∧
    (∀ x ∈ firedRows ⟨100, 12, 0, 0⟩ (checkUpdate ⟨100, 9, 5, 30⟩ [w3Rem]),
      x.id ≠ w3Rem.id) := by
  refine c3_daily_once_per_day [w3Rem] w3Rem ⟨100, 9, 5, 30⟩ ⟨100, 12, 0, 0⟩
    ⟨9, 0⟩ (List.mem_singleton.mpr rfl) ?_ rfl rfl (by decide) rfl
  intro x hx hid
  rcases List.mem_singleton.mp hx with rfl
  rfl

end Bubbles

namespace Bubbles

/-- The `weekday` field of the AI-supplied dict: either a Python `int`
value or something of another type (`isinstance(data["weekday"], int)`,
`func_reminder.py` line 131). -/
inductive WVal where
  | intVal (w : Int)
  | nonInt
deriving DecidableEq, Repr

/-- The AI-parsed dict handed to `add_reminder`: each required key may be
missing, and `time` carries its parse class. -/
structure AddData where
  type? : Option String
  time? : Option TimeField
  content? : Option String
  weekday? : Option WVal
deriving DecidableEq, Repr

/-- The row `add_reminder` inserts on success
(`func_reminder.py` lines 138-152): fresh id, `last_triggered_at = NULL`,
`weekday` only for weekly reminders. -/
def mkReminder (fid wxid : String) (k : RKind) (tv : TimeField) (ct : String)
    (createdAt : DT) (wd : Option Int) (roomid : Option String) : Reminder :=
  { id := fid, wxid := wxid, kind := k, time := tv, content := ct,
    createdAt := createdAt, lastTriggeredAt := none, weekday := wd,
    roomid := roomid }

/-- `ReminderManager.add_reminder` (`func_reminder.py` lines 101-169):
validate required keys, the kind, the kind-specific time format — a ONCE
time must be an absolute stamp strictly in the future
(`trigger_dt <= datetime.now()` rejects), DAILY/WEEKLY must be times of
day, WEEKLY additionally needs an integer weekday in `[0, 6]` — then
insert one row and return its id.  `now` is `datetime.now()` and `fid` the
freshly drawn UUID. -/
def addReminder (now : DT) (fid wxid : String) (data : AddData)
    (roomid : Option String) (store : List Reminder) :
    (Bool × String) × List Reminder :=
  match data.type?, data.time?, data.content? with
  | some ty, some tv, some ct =>
    if ty = "once" then
      match tv with
      | .absVal d =>
          if DT.leB d now then ((false, "once time must be in the future"), store)
          else ((true, fid),
            store ++ [mkReminder fid wxid .once tv ct now none roomid])
      | _ => ((false, "time format error"), store)
    else if ty = "daily" then
      match tv with
      | .todVal _ => ((true, fid),
          store ++ [mkReminder fid wxid .daily tv ct now none roomid])
      | _ => ((false, "time format error"), store)
    else if ty = "weekly" then
      match tv with
      | .todVal _ =>
          match data.weekday? with
          | some (.intVal w) =>
              if 0 ≤ w ∧ w ≤ 6 then ((true, fid),
                store ++ [mkReminder fid wxid .weekly tv ct now (some w) roomid])
              else ((false, "weekly needs weekday 0-6"), store)
          | _ => ((false, "weekly needs weekday 0-6"), store)
      | _ => ((false, "time format error"), store)
    else ((false, "unsupported reminder type"), store)
  | _, _, _ => ((false, "missing required fields"), store)

/-- The validity condition `add_reminder` actually enforces (note: no
content-length check happens inside `add_reminder`; the ≥ 2 trimmed-length
check lives in the calling handler, `handlers.py` line 700). -/
def addValidB (now : DT) (data : AddData) : Bool :=
  match data.type?, data.time?, data.content? with
  | some ty, some tv, some _ =>
    if ty = "once" then
      match tv with
      | .absVal d => !DT.leB d now
      | _ => false
    else if ty = "daily" then
      match tv with
      | .todVal _ => true
      | _ => false
    else if ty = "weekly" then
      match tv with
      | .todVal _ =>
          match data.weekday? with
          | some (.intVal w) => decide (0 ≤ w ∧ w ≤ 6)
          | _ => false
      | _ => false
    else false
  | _, _, _ => false

/-- Sort index of the `CASE type` key in `list_reminders`
(`func_reminder.py` lines 310-315). -/
def remKindIdx : RKind → Nat
  | .once => 1
  | .daily => 2
  | .weekly => 3

/-- `time_str ASC` comparison within one kind: absolute stamps compare to
the minute, times of day lexicographically (kind-consistent rows never mix
shapes; the cross-shape cases are an arbitrary total completion). -/
def timeFieldLeB : TimeField → TimeField → Bool
  | .absVal a, .absVal b => DT.leMinuteB a b
  | .todVal a, .todVal b => HM.leB a b
  | .absVal _, _ => true
  | _, .absVal _ => false
  | .todVal _, .badVal => true
  | .badVal, .todVal _ => false
  | .badVal, .badVal => true

/-- `ORDER BY CASE type ..., time_str ASC` (`func_reminder.py`
lines 306-317). -/
def remLeB (a b : Reminder) : Bool :=
  if remKindIdx a.kind < remKindIdx b.kind then true
  else if remKindIdx a.kind = remKindIdx b.kind then timeFieldLeB a.time b.time
  else false

/-- `ReminderManager.list_reminders` (`func_reminder.py` lines 298-326):
all of the user's rows regardless of `roomid`, sorted by kind then time. -/
def listReminders (wxid : String) (store : List Reminder) : List Reminder :=
  @List.insertionSort Reminder (fun a b => remLeB a b = true)
    (fun a b => instDecidableEqBool (remLeB a b) true)
    (store.filter (fun r => r.wxid == wxid))

/-- Helper: membership in `list_reminders` is ownership-filtered
membership in the store. -/
theorem mem_listReminders (w : String) (store : List Reminder) (x : Reminder) :
    x ∈ listReminders w store ↔ x ∈ store ∧ x.wxid = w := by
  unfold listReminders
  rw [(List.perm_insertionSort _ _).mem_iff]
  simp [List.mem_filter]

/-- `ReminderManager.delete_reminder` (`func_reminder.py` lines 328-364):
count the caller's rows with exactly the given id (`WHERE id = ? AND
wxid = ?`); zero matches — including ids owned by someone else — is a
not-found failure that deletes nothing, otherwise those exact rows are
deleted. -/
def deleteReminder (wxid rid : String) (store : List Reminder) :
    (Bool × String) × List Reminder :=
  if store.countP (fun r => decide (r.id = rid ∧ r.wxid = wxid)) = 0 then
    ((false, "reminder not found or not yours"), store)
  else
    ((true, "reminder deleted"),
      store.filter (fun r => !(decide (r.id = rid ∧ r.wxid = wxid))))

end Bubbles

namespace Bubbles

/-- C6 (amended): `delete_reminder` works by exact id + owner match only.
When no stored row has exactly the given id with the caller as owner — in
particular for another user's reminder id — it fails with not-found and
deletes nothing; when such rows exist it deletes exactly them.  No
prefix-based lookup and no separate ambiguity error exist in the code. -/
theorem c6_delete_reminder_exact (wxid rid : String) (store : List Reminder) :
    ((∀ x ∈ store, ¬(x.id = rid ∧ x.wxid = wxid)) →
      deleteReminder wxid rid store =
        ((false, "reminder not found or not yours"), store)) ∧
    ((∃ x ∈ store, x.id = rid ∧ x.wxid = wxid) →
      (deleteReminder wxid rid store).1.1 = true ∧
      (deleteReminder wxid rid store).2 =
        store.filter (fun r => !(decide (r.id = rid ∧ r.wxid = wxid)))) := by
  constructor
  · intro h
    unfold deleteReminder
    rw [if_pos]
    rw [List.countP_eq_zero]
    intro a ha
    simpa using h a ha
  · rintro ⟨x, hx, hxx⟩
    unfold deleteReminder
    rw [if_neg]
    · exact ⟨rfl, rfl⟩
    · intro hz
      rw [List.countP_eq_zero] at hz
      have h := hz x hx
      simp only [decide_eq_true_eq] at h
      exact h hxx

/-- The C6 counterexample store: one reminder owned by `"user-6"` whose id
extends the six-character shorthand `"abcdef"`. -/
def w6Rem : Reminder :=
  { id := "abcdef" ++ "-123", wxid := "user-6", kind := RKind.daily,
    time := TimeField.todVal ⟨8, 0⟩, content := "standup",
    createdAt := ⟨0, 0, 0, 0⟩, lastTriggeredAt := none,
    weekday := none, roomid := none }

/-- C6 counterexample: the claim's prefix convenience does not exist.
`"abcdef"` is a shorthand extending to the id of the owner's unique
reminder, yet `delete_reminder` called by the owner with that prefix
returns not-found and deletes nothing. -/
theorem c6_counterexample_no_prefix :
    w6Rem.id = "abcdef" ++ "-123" ∧ w6Rem.wxid = "user-6" ∧
    deleteReminder "user-6" "abcdef" [w6Rem] =
      ((false, "reminder not found or not yours"), [w6Rem]) := by
  refine ⟨rfl, rfl, ?_⟩
  exact (c6_delete_reminder_exact "user-6" "abcdef" [w6Rem]).1 (by decide)

/-- C6 witness: deleting by another user's reminder id fails with
not-found and deletes nothing. -/
theorem c6_delete_reminder_exact_witness :
    deleteReminder "intruder" ("abcdef" ++ "-123") [w6Rem] =
      ((false, "reminder not found or not yours"), [w6Rem]) :=
  (c6_delete_reminder_exact "intruder" ("abcdef" ++ "-123") [w6Rem]).1 (by decide)

end Bubbles

namespace Bubbles

/-- The length of a string after Python `str.strip()`: leading and
trailing whitespace removed. -/
def trimmedLength (s : String) : Nat :=
  (((s.toList.dropWhile Char.isWhitespace).reverse.dropWhile
      Char.isWhitespace).reverse).length

/-- C5 (amended): `add_reminder` fails — persisting nothing — exactly when
a required key is missing, the kind is not once/daily/weekly, a ONCE time
is not an absolute future stamp, a DAILY/WEEKLY time is not a time of day,
or a WEEKLY weekday is not an integer in `[0, 6]`; in every other case it
appends exactly one new row and returns its id.  (Contrary to the original
claim, `add_reminder` itself performs no trimmed-content-length check;
that check lives in the calling handler.) -/
theorem c5_add_reminder_validation (now : DT) (fid wxid : String)
    (data : AddData) (roomid : Option String) (store : List Reminder) :
    (addValidB now data = true →
      (addReminder now fid wxid data roomid store).1.1 = true ∧
      (addReminder now fid wxid data roomid store).1.2 = fid ∧
      ∃ row : Reminder, row.id = fid ∧
        (addReminder now fid wxid data roomid store).2 = store ++ [row]) ∧
    (addValidB now data = false →
      (addReminder now fid wxid data roomid store).1.1 = false ∧
      (addReminder now fid wxid data roomid store).2 = store) := by
  obtain ⟨ty?, tv?, ct?, wd?⟩ := data
  rcases ty? with _ | ty
  · exact ⟨fun h => absurd h (by simp [addValidB]), fun _ => ⟨rfl, rfl⟩⟩
  rcases tv? with _ | tv
  · exact ⟨fun h => absurd h (by simp [addValidB]), fun _ => ⟨rfl, rfl⟩⟩
  rcases ct? with _ | ct
  · exact ⟨fun h => absurd h (by simp [addValidB]), fun _ => ⟨rfl, rfl⟩⟩
  by_cases h1 : ty = "once"
  · subst h1
    rcases tv with d | t | _
    · by_cases h2 : DT.leB d now = true
      · refine ⟨fun h => absurd h ?_, fun _ => ?_⟩
        · simp [addValidB, h2]
        · constructor <;> simp [addReminder, h2]
      · replace h2 : DT.leB d now = false := by
          cases hd : DT.leB d now
          · rfl
          · exact absurd hd h2
        refine ⟨fun _ => ?_, fun h => by simp [addValidB, h2] at h⟩
        refine ⟨?_, ?_,
          mkReminder fid wxid .once (.absVal d) ct now none roomid, rfl, ?_⟩ <;>
          simp [addReminder, h2]
    · exact ⟨fun h => absurd h (by simp [addValidB]),
        fun _ => by constructor <;> simp [addReminder]⟩
    · exact ⟨fun h => absurd h (by simp [addValidB]),
        fun _ => by constructor <;> simp [addReminder]⟩
  · by_cases h2 : ty = "daily"
    · subst h2
      rcases tv with d | t | _
      · exact ⟨fun h => absurd h (by simp [addValidB]),
          fun _ => by constructor <;> simp [addReminder]⟩
      · refine ⟨fun _ => ?_, fun h => by simp [addValidB] at h⟩
        refine ⟨?_, ?_,
          mkReminder fid wxid .daily (.todVal t) ct now none roomid, rfl, ?_⟩ <;>
          simp [addReminder]
      · exact ⟨fun h => absurd h (by simp [addValidB]),
          fun _ => by constructor <;> simp [addReminder]⟩
    · by_cases h3 : ty = "weekly"
      · subst h3
        rcases tv with d | t | _
        · exact ⟨fun h => absurd h (by simp [addValidB]),
            fun _ => by constructor <;> simp [addReminder]⟩
        · rcases wd? with _ | wv
          · exact ⟨fun h => absurd h (by simp [addValidB]),
              fun _ => by constructor <;> simp [addReminder]⟩
          · rcases wv with w | _
            · by_cases h4 : 0 ≤ w ∧ w ≤ 6
              · refine ⟨fun _ => ?_, fun h => by simp [addValidB, h4] at h⟩
                refine ⟨?_, ?_,
                  mkReminder fid wxid .weekly (.todVal t) ct now (some w) roomid,
                  rfl, ?_⟩ <;> simp [addReminder, h4]
              · refine ⟨fun h => absurd h ?_, fun _ => ?_⟩
                · simp [addValidB, h4]
                · constructor <;> simp [addReminder, h4]
            · exact ⟨fun h => absurd h (by simp [addValidB]),
                fun _ => by constructor <;> simp [addReminder]⟩
        · exact ⟨fun h => absurd h (by simp [addValidB]),
            fun _ => by constructor <;> simp [addReminder]⟩
      · refine ⟨fun h => absurd h ?_, fun _ => ?_⟩
        · simp [addValidB, h1, h2, h3]
        · constructor <;> simp [addReminder, h1, h2, h3]

theorem c5_add_reminder_validation_witness :
    addValidB ⟨100, 8, 0, 0⟩
      ⟨some "weekly", some (TimeField.todVal ⟨9, 0⟩), some "gym",
        some (WVal.intVal 2)⟩ = true ∧
    ((addReminder ⟨100, 8, 0, 0⟩ "rid-2" "user-5"
        ⟨some "weekly", some (TimeField.todVal ⟨9, 0⟩), some "gym",
          some (WVal.intVal 2)⟩ none []).1.1 = true ∧
      (addReminder ⟨100, 8, 0, 0⟩ "rid-2" "user-5"
        ⟨some "weekly", some (TimeField.todVal ⟨9, 0⟩), some "gym",
          some (WVal.intVal 2)⟩ none []).1.2 = "rid-2" ∧
      ∃ row : Reminder, row.id = "rid-2" ∧
        (addReminder ⟨100, 8, 0, 0⟩ "rid-2" "user-5"
          ⟨some "weekly", some (TimeField.todVal ⟨9, 0⟩), some "gym",
            some (WVal.intVal 2)⟩ none []).2 = [] ++ [row]) :=
  ⟨by decide,
    (c5_add_reminder_validation ⟨100, 8, 0, 0⟩ "rid-2" "user-5"
      ⟨some "weekly", some (TimeField.todVal ⟨9, 0⟩), some "gym",
        some (WVal.intVal 2)⟩ none []).1 (by decide)⟩

/-- C5 counterexample: the original claim requires `add_reminder` to
reject a content whose trimmed length is below 2, but a valid daily
reminder with content `"x"` (trimmed length 1) is accepted and persisted:
`add_reminder` has no content-length validation. -/
theorem c5_counterexample_short_content :
    trimmedLength "x" < 2 ∧
    addReminder ⟨100, 8, 0, 0⟩ "rid-1" "user-5"
      ⟨some "daily", some (TimeField.todVal ⟨9, 0⟩), some "x", none⟩ none [] =
      ((true, "rid-1"),
        [mkReminder "rid-1" "user-5" RKind.daily (TimeField.todVal ⟨9, 0⟩) "x"
          ⟨100, 8, 0, 0⟩ none none]) := by
  exact ⟨by decide, rfl⟩

end Bubbles

namespace Bubbles

/-- The row a successful ONCE `add_reminder` inserts. -/
def onceRow (fid wxid : String) (d : DT) (ct : String) (now0 : DT)
    (roomid : Option String) : Reminder :=
  mkReminder fid wxid .once (.absVal d) ct now0 none roomid

/-- C4: a valid ONCE reminder with a future trigger is accepted by
`add_reminder` and appears in the owner's `list_reminders`; a
`check_and_trigger_reminders` tick at or after the trigger fires it
exactly once and deletes its row, so it is absent from the post-tick
store, from the owner's subsequent `list_reminders`, and from the store
after any further tick. -/
theorem c4_once_lifecycle (now0 now : DT) (fid wxid : String) (d : DT)
    (ct : String) (wd : Option WVal) (roomid : Option String)
    (store : List Reminder)
    (hfresh : ∀ x ∈ store, x.id ≠ fid)
    (hfuture : DT.leB d now0 = false)
    (hdue : DT.leMinuteB d now = true) :
    addReminder now0 fid wxid
        ⟨some "once", some (TimeField.absVal d), some ct, wd⟩ roomid store =
      ((true, fid), store ++ [onceRow fid wxid d ct now0 roomid]) ∧
    onceRow fid wxid d ct now0 roomid ∈
      listReminders wxid (store ++ [onceRow fid wxid d ct now0 roomid]) ∧
    (firedRows now (store ++ [onceRow fid wxid d ct now0 roomid])).countP
        (fun x => decide (x.id = fid)) = 1 ∧
    (∀ x ∈ checkUpdate now (store ++ [onceRow fid wxid d ct now0 roomid]),
      x.id ≠ fid) ∧
    (∀ x ∈ listReminders wxid
        (checkUpdate now (store ++ [onceRow fid wxid d ct now0 roomid])),
      x.id ≠ fid) ∧
    (∀ now2 : DT, ∀ x ∈ checkUpdate now2
        (checkUpdate now (store ++ [onceRow fid wxid d ct now0 roomid])),
      x.id ≠ fid) := by
  have hrowOnce : onceDueB (onceRow fid wxid d ct now0 roomid) now = true := by
    simp [onceDueB, onceRow, mkReminder, hdue]
  have hrowDaily : dailyDueB (onceRow fid wxid d ct now0 roomid) now = false := by
    simp [dailyDueB, onceRow, mkReminder]
  have hrowWeekly : weeklyDueB (onceRow fid wxid d ct now0 roomid) now = false := by
    simp [weeklyDueB, onceRow, mkReminder]
  have habsent : ∀ x ∈ checkUpdate now (store ++ [onceRow fid wxid d ct now0 roomid]),
      x.id ≠ fid := by
    intro x hx hid
    obtain ⟨y, hy, _, hidxy, hdel⟩ := mem_checkUpdate now _ x hx
    have hyid : y.id = fid := by rw [← hidxy]; exact hid
    rcases List.mem_append.mp hy with hy1 | hy1
    · exact hfresh y hy1 hyid
    · have hyr : y = onceRow fid wxid d ct now0 roomid := List.mem_singleton.mp hy1
      subst hyr
      have hmem : idMem (onceRow fid wxid d ct now0 roomid).id
          (onceIdsToDelete now (store ++ [onceRow fid wxid d ct now0 roomid])) = true := by
        rw [idMem_iff]
        unfold onceIdsToDelete
        exact List.mem_map.mpr ⟨_, List.mem_filter.mpr
          ⟨List.mem_append.mpr (Or.inr (List.mem_singleton.mpr rfl)), hrowOnce⟩, rfl⟩
      rw [hmem] at hdel
      cases hdel
  refine ⟨?_, ?_, ?_, habsent, ?_, ?_⟩
  · simp [addReminder, hfuture, onceRow]
  · exact (mem_listReminders wxid _ _).mpr
      ⟨List.mem_append.mpr (Or.inr (List.mem_singleton.mpr rfl)), rfl⟩
  · have hz1 : store.countP (fun a => decide (a.id = fid) && onceDueB a now) = 0 :=
      List.countP_eq_zero.mpr (fun a ha => by simp [hfresh a ha])
    have hz2 : store.countP (fun a => decide (a.id = fid) && dailyDueB a now) = 0 :=
      List.countP_eq_zero.mpr (fun a ha => by simp [hfresh a ha])
    have hz3 : store.countP (fun a => decide (a.id = fid) && weeklyDueB a now) = 0 :=
      List.countP_eq_zero.mpr (fun a ha => by simp [hfresh a ha])
    unfold firedRows
    rw [List.countP_append, List.countP_append,
      List.countP_filter, List.countP_filter, List.countP_filter,
      List.countP_append, List.countP_append, List.countP_append,
      hz1, hz2, hz3]
    simp [List.countP_cons, hrowOnce, hrowDaily, hrowWeekly]
    rfl
  · intro x hx
    exact habsent x ((mem_listReminders wxid _ x).mp hx).1
  · intro now2 x hx hid
    obtain ⟨y, hy, _, hidxy, _⟩ := mem_checkUpdate now2 _ x hx
    exact habsent y hy (by rw [← hidxy]; exact hid)

theorem c4_once_lifecycle_witness :
    addReminder ⟨100, 8, 0, 0⟩ "rid-once" "user-4"
        ⟨some "once", some (TimeField.absVal ⟨200, 9, 0, 0⟩), some "team sync",
          none⟩ none [] =
      ((true, "rid-once"),
        [] ++ [onceRow "rid-once" "user-4" ⟨200, 9, 0, 0⟩ "team sync"
          ⟨100, 8, 0, 0⟩ none]) ∧
    onceRow "rid-once" "user-4" ⟨200, 9, 0, 0⟩ "team sync" ⟨100, 8, 0, 0⟩ none ∈
      listReminders "user-4" ([] ++ [onceRow "rid-once" "user-4" ⟨200, 9, 0, 0⟩
        "team sync" ⟨100, 8, 0, 0⟩ none]) ∧
    (firedRows ⟨200, 9, 0, 30⟩ ([] ++ [onceRow "rid-once" "user-4"
        ⟨200, 9, 0, 0⟩ "team sync" ⟨100, 8, 0, 0⟩ none])).countP
      (fun x => decide (x.id = "rid-once")) = 1 ∧
    (∀ x ∈ checkUpdate ⟨200, 9, 0, 30⟩ ([] ++ [onceRow "rid-once" "user-4"
        ⟨200, 9, 0, 0⟩ "team sync" ⟨100, 8, 0, 0⟩ none]), x.id ≠ "rid-once") ∧
    (∀ x ∈ listReminders "user-4" (checkUpdate ⟨200, 9, 0, 30⟩
        ([] ++ [onceRow "rid-once" "user-4" ⟨200, 9, 0, 0⟩ "team sync"
          ⟨100, 8, 0, 0⟩ none])), x.id ≠ "rid-once") ∧
    (∀ now2 : DT, ∀ x ∈ checkUpdate now2 (checkUpdate ⟨200, 9, 0, 30⟩
        ([] ++ [onceRow "rid-once" "user-4" ⟨200, 9, 0, 0⟩ "team sync"
          ⟨100, 8, 0, 0⟩ none])), x.id ≠ "rid-once") :=
  c4_once_lifecycle ⟨100, 8, 0, 0⟩ ⟨200, 9, 0, 30⟩ "rid-once" "user-4"
    ⟨200, 9, 0, 0⟩ "team sync" none none []
    (fun x hx => absurd hx (List.not_mem_nil x)) (by decide) (by decide)

end Bubbles
